import Mathlib

/-!
Shallow embedding of `src/alphazero/evaluator.py` (class `Evaluator` and the
module-level function `save_accepted_model`), together with proofs about the
tournament evaluation procedure, the game-episode loop, the coordinator /
promotion-barrier state machine and the model archive.

Models are abstracted as version identifiers (`Nat`); a per-game outcome is
the integer returned by `play_game` (1 first-player win, -1 second-player
win, 0 draw).
-/

namespace AlphaZero

/-- The two agent identities compared by one evaluation:
the current model (incumbent) and the new model candidate. -/
inductive Agent where
  | incumbent
  | candidate
deriving DecidableEq, Repr

/-- The loop state of `Evaluator.evaluate`: the two python variables
`first_player` / `second_player`, the counter `num_wins`, and a log of the
first argument passed to each `play_game` call (who occupied the "first"
role in each game). -/
structure EvalLoopState where
  first : Agent
  second : Agent
  numWins : Nat
  log : List Agent
deriving DecidableEq, Repr

/-- The body of the `for i in range(num_evaluate_games)` loop in
`Evaluator.evaluate`, with `h = halfway_point = num_evaluate_games // 2` and
`r i` the outcome of game `i` (the value returned by `play_game`):
swap the player order when `i == halfway_point`, play the game (recorded in
the log), and increment `num_wins` iff
`(i < halfway_point and result == -1) or (i >= halfway_point and result == 1)`. -/
def evalStep (h : Nat) (r : Nat → Int) (s : EvalLoopState) (i : Nat) : EvalLoopState :=
  let s1 := if i = h then { s with first := s.second, second := s.first } else s
  let s2 := { s1 with log := s1.log ++ [s1.first] }
  if (i < h ∧ r i = -1) ∨ (h ≤ i ∧ r i = 1) then
    { s2 with numWins := s2.numWins + 1 }
  else s2

/-- The whole evaluation loop of `Evaluator.evaluate`, starting from
`first_player = current_model` (incumbent) and `second_player = new_model`
(candidate) with `num_wins = 0`. -/
def evalLoop (n : Nat) (r : Nat → Int) : EvalLoopState :=
  (List.range n).foldl (evalStep (n / 2) r) ⟨.incumbent, .candidate, 0, []⟩

/-- `num_wins` after the evaluation loop of `Evaluator.evaluate`. -/
def num_wins (n : Nat) (r : Nat → Int) : Nat := (evalLoop n r).numWins

/-- `Evaluator.evaluate`: run the loop, then return
`(num_wins / self.args.num_evaluate_games) >= self.args.evaluation_threshold`.
The final division is python `/`, which raises `ZeroDivisionError` when
`num_evaluate_games = 0`; this is modelled by the `Except` error case. -/
def evaluate (n : Nat) (threshold : ℚ) (r : Nat → Int) : Except String Bool :=
  let wins := num_wins n r
  if n = 0 then .error "ZeroDivisionError: division by zero"
  else .ok (decide ((wins : ℚ) / (n : ℚ) ≥ threshold))

/-- The agent that occupies the "first" role in game `i`
when the halfway point is `h` (closed form, proved equal to the loop). -/
def roleOf (h : Nat) (i : Nat) : Agent :=
  if i < h then .incumbent else .candidate

/-- The win-increment test of the loop body as a Bool predicate on the
game index. -/
def winCond (h : Nat) (r : Nat → Int) (i : Nat) : Bool :=
  decide ((i < h ∧ r i = -1) ∨ (h ≤ i ∧ r i = 1))

/-- Closed form of the evaluation loop: after processing games
`0, ..., k-1`, the player order is swapped exactly when `k > h`, the win
counter counts the indices satisfying the win condition, and the log of
first-role assignments is `roleOf h` pointwise. -/
lemma evalLoop_closed_form (h : Nat) (r : Nat → Int) (k : Nat) :
    (List.range k).foldl (evalStep h r) ⟨.incumbent, .candidate, 0, []⟩ =
      ⟨if k ≤ h then .incumbent else .candidate,
       if k ≤ h then .candidate else .incumbent,
       ((List.range k).filter (winCond h r)).length,
       (List.range k).map (roleOf h)⟩ := by
  induction k with
  | zero => simp
  | succ k ih =>
    rw [List.range_succ, List.foldl_append, ih, List.filter_append,
      List.map_append]
    simp only [List.foldl_cons, List.foldl_nil, List.filter_cons,
      List.filter_nil, List.map_cons, List.map_nil, List.length_append]
    rcases Nat.lt_trichotomy k h with hk | hk | hk
    · have h1 : k ≤ h := Nat.le_of_lt hk
      have h2 : k + 1 ≤ h := hk
      have h3 : ¬ k = h := Nat.ne_of_lt hk
      have h4 : ¬ h ≤ k := Nat.not_le_of_lt hk
      by_cases hw : r k = -1 <;>
        simp [evalStep, winCond, roleOf, h1, h2, h3, h4, hk, hw]
    · subst hk
      have h1 : k ≤ k := Nat.le_refl k
      have h2 : ¬ k + 1 ≤ k := Nat.not_succ_le_self k
      have h3 : ¬ k < k := Nat.lt_irrefl k
      by_cases hw : r k = 1 <;>
        simp [evalStep, winCond, roleOf, h1, h2, h3, hw]
    · have h1 : ¬ k ≤ h := Nat.not_le_of_lt hk
      have h2 : ¬ k + 1 ≤ h := fun hc => h1 (Nat.le_of_succ_le hc)
      have h3 : ¬ k = h := Nat.ne_of_gt hk
      have h4 : ¬ k < h := Nat.not_lt_of_lt hk
      have h5 : h ≤ k := Nat.le_of_lt hk
      by_cases hw : r k = 1 <;>
        simp [evalStep, winCond, roleOf, h1, h2, h3, h4, h5, hw]

/-- In the role log produced by `roleOf h`, the incumbent occupies the
first role in exactly `min h n` of the `n` games. -/
lemma count_roleOf_incumbent (h n : Nat) :
    ((List.range n).map (roleOf h)).count Agent.incumbent = min h n := by
  induction n with
  | zero => simp
  | succ n ih =>
    rw [List.range_succ, List.map_append, List.count_append, ih]
    by_cases hn : n < h
    · simp [roleOf, hn]
      omega
    · simp [roleOf, hn]
      omega

/-- In the role log produced by `roleOf h`, the candidate occupies the
first role in exactly `n - min h n` of the `n` games. -/
lemma count_roleOf_candidate (h n : Nat) :
    ((List.range n).map (roleOf h)).count Agent.candidate = n - min h n := by
  induction n with
  | zero => simp
  | succ n ih =>
    rw [List.range_succ, List.map_append, List.count_append, ih]
    by_cases hn : n < h
    · simp [roleOf, hn]
      omega
    · simp [roleOf, hn]
      omega

/-- The game collaborator interface used by `Evaluator.play_game`
(`self.game` together with the board/move translators and the model
forward pass, abstracted): `rankedOf p b` is the ranked candidate-action
list obtained for player `p` on board `b` by decoding the descending
argsort of the policy.  `getNextState` receives an `Option` action because
the python loop variable `action` is initialized to `None` and is passed
as-is to `getNextState`. -/
structure GameSpec (Board Action : Type) where
  getInitBoard : Board
  getGameEnded : Board → Bool
  checkIfValid : Board → Action → Bool
  getNextState : Board → Option Action → Board
  getResult : Board → String

/-- The action-selection loop of `Evaluator.play_game`:
`action = None; for a in ranked: action = decode(a); if checkIfValid: break`.
`acc` is the current value of the python variable `action`. -/
def selectAction {Action : Type} (valid : Action → Bool) :
    Option Action → List Action → Option Action
  | acc, [] => acc
  | _, a :: rest => if valid a then some a else selectAction valid (some a) rest

/-- One iteration of the while-loop body of `Evaluator.play_game` for the
current player's ranked candidate list: select an action and advance the
board with `getNextState`. -/
def playTurn {Board Action : Type} (g : GameSpec Board Action)
    (ranked : List Action) (board : Board) : Board :=
  g.getNextState board (selectAction (fun a => g.checkIfValid board a) none ranked)

/-- The while-loop of `Evaluator.play_game`, alternating the current and
next player; `fuel` bounds the number of iterations (the python loop has no
bound; `none` means the bound was exhausted before the game ended). -/
def playLoop {Board Action : Type} (g : GameSpec Board Action) :
    Nat → (Board → List Action) → (Board → List Action) → Board → Option Board
  | 0, _, _, _ => none
  | fuel + 1, cur, nxt, board =>
    if g.getGameEnded board then some board
    else playLoop g fuel nxt cur (playTurn g (cur board) board)

/-- The result mapping at the end of `Evaluator.play_game`:
"1-0" ↦ 1 (first player won), "0-1" ↦ -1 (second player won), else 0. -/
def resultOfString (s : String) : Int :=
  if s = "1-0" then 1 else if s = "0-1" then -1 else 0

/-- `Evaluator.play_game`: run one episode from `getInitBoard` with the
first player to move, and map the terminal result string to an integer. -/
def play_game {Board Action : Type} (g : GameSpec Board Action)
    (fuel : Nat) (first second : Board → List Action) : Option Int :=
  (playLoop g fuel first second g.getInitBoard).map
    (fun b => resultOfString (g.getResult b))

/-- A concrete game instance on which no candidate action is ever legal:
boards are `Nat` (0 initial, 1 terminal), the single action is `Unit`,
`checkIfValid` always fails, and applying any action reaches the terminal
board with result "1-0". -/
def stuckGame : GameSpec Nat Unit where
  getInitBoard := 0
  getGameEnded := fun b => decide (b = 1)
  checkIfValid := fun _ _ => false
  getNextState := fun _ _ => 1
  getResult := fun _ => "1-0"

/-- An agent whose ranked candidate list is the single action `()`. -/
def stuckRanked : Nat → List Unit := fun _ => [()]

/-- The shared coordination dictionary `shared_variables` of
`Evaluator.start`: the published model parameters (as a version id), the
two promotion signal flags, and the two pending-worker counters. -/
structure SharedState where
  modelSlot : Nat
  selfPlaySignal : Nat
  trainingSignal : Nat
  numSelfPlayWorkers : Int
  numTrainingWorkers : Int
deriving DecidableEq, Repr

/-- Program points of the accept branch of the coordinator loop in
`Evaluator.start` (the body of `if self.evaluate(...)`), one per statement
of the source, in source order. -/
inductive PC where
  | loadCurrent
  | publishModel
  | setSelfPlaySignal
  | setTrainingSignal
  | snapSelfPlay
  | snapTraining
  | waitTest
  | clearSelfPlaySignal
  | clearTrainingSignal
  | restoreSelfPlay
  | restoreTraining
  | saveModel
  | done
deriving DecidableEq, Repr

/-- Source order of the program points. -/
def pcIdx : PC → Nat
  | .loadCurrent => 0
  | .publishModel => 1
  | .setSelfPlaySignal => 2
  | .setTrainingSignal => 3
  | .snapSelfPlay => 4
  | .snapTraining => 5
  | .waitTest => 6
  | .clearSelfPlaySignal => 7
  | .clearTrainingSignal => 8
  | .restoreSelfPlay => 9
  | .restoreTraining => 10
  | .saveModel => 11
  | .done => 12

/-- A configuration of the coordinator while it executes the accept
branch: program point, the coordinator's local model reference
`self.current_model`, the two snapshot locals `num_self_play_workers` /
`num_training_workers`, the shared dictionary, and the list of archived
model versions (the effect of `save_accepted_model`). -/
structure Config where
  pc : PC
  currentModel : Nat
  snapSelfPlay : Int
  snapTraining : Int
  shared : SharedState
  saved : List Nat
deriving DecidableEq, Repr

/-- The guard of the barrier wait loop in `Evaluator.start`, exactly as in
the source:
`self.shared_variables[NUM_SELF_PLAY_WORKERS] > 0 and
 self.shared_variables[NUM_TRAINING_WORKERS] > 0`. -/
def waitLoopContinues (sp tr : Int) : Bool :=
  decide (sp > 0) && decide (tr > 0)

/-- One statement of the accept branch of `Evaluator.start`, promoting
`newVersion`; each constructor is one source statement in source order.
The wait loop is the pair `waitSleep` (guard true: sleep and re-test) /
`waitExit` (guard false: fall through). -/
inductive CoordStep (newVersion : Nat) : Config → Config → Prop where
  | loadCurrent (c : Config) : c.pc = .loadCurrent →
      CoordStep newVersion c { c with pc := .publishModel, currentModel := newVersion }
  | publishModel (c : Config) : c.pc = .publishModel →
      CoordStep newVersion c
        { c with pc := .setSelfPlaySignal,
                 shared := { c.shared with modelSlot := newVersion } }
  | setSelfPlaySignal (c : Config) : c.pc = .setSelfPlaySignal →
      CoordStep newVersion c
        { c with pc := .setTrainingSignal,
                 shared := { c.shared with selfPlaySignal := 1 } }
  | setTrainingSignal (c : Config) : c.pc = .setTrainingSignal →
      CoordStep newVersion c
        { c with pc := .snapSelfPlay,
                 shared := { c.shared with trainingSignal := 1 } }
  | snapSelfPlay (c : Config) : c.pc = .snapSelfPlay →
      CoordStep newVersion c
        { c with pc := .snapTraining, snapSelfPlay := c.shared.numSelfPlayWorkers }
  | snapTraining (c : Config) : c.pc = .snapTraining →
      CoordStep newVersion c
        { c with pc := .waitTest, snapTraining := c.shared.numTrainingWorkers }
  | waitSleep (c : Config) : c.pc = .waitTest →
      waitLoopContinues c.shared.numSelfPlayWorkers c.shared.numTrainingWorkers = true →
      CoordStep newVersion c c
  | waitExit (c : Config) : c.pc = .waitTest →
      waitLoopContinues c.shared.numSelfPlayWorkers c.shared.numTrainingWorkers = false →
      CoordStep newVersion c { c with pc := .clearSelfPlaySignal }
  | clearSelfPlaySignal (c : Config) : c.pc = .clearSelfPlaySignal →
      CoordStep newVersion c
        { c with pc := .clearTrainingSignal,
                 shared := { c.shared with selfPlaySignal := 0 } }
  | clearTrainingSignal (c : Config) : c.pc = .clearTrainingSignal →
      CoordStep newVersion c
        { c with pc := .restoreSelfPlay,
                 shared := { c.shared with trainingSignal := 0 } }
  | restoreSelfPlay (c : Config) : c.pc = .restoreSelfPlay →
      CoordStep newVersion c
        { c with pc := .restoreTraining,
                 shared := { c.shared with numSelfPlayWorkers := c.snapSelfPlay } }
  | restoreTraining (c : Config) : c.pc = .restoreTraining →
      CoordStep newVersion c
        { c with pc := .saveModel,
                 shared := { c.shared with numTrainingWorkers := c.snapTraining } }
  | saveModel (c : Config) : c.pc = .saveModel →
      CoordStep newVersion c { c with pc := .done, saved := c.saved ++ [newVersion] }

/-- Modelled from the spec: the worker-side acknowledgement contract of
§4.3 (the self-play and training worker processes are not part of the
given source).  A worker of a class, upon observing its class's signal flag
set, decrements its class's pending counter; workers write nothing else
(§5: the coordinator is the sole writer of the model slot and the signal
flags, each worker class only decrements its own counter). -/
inductive EnvStep : Config → Config → Prop where
  | selfPlayAck (c : Config) : c.shared.selfPlaySignal = 1 →
      EnvStep c
        { c with shared :=
            { c.shared with numSelfPlayWorkers := c.shared.numSelfPlayWorkers - 1 } }
  | trainingAck (c : Config) : c.shared.trainingSignal = 1 →
      EnvStep c
        { c with shared :=
            { c.shared with numTrainingWorkers := c.shared.numTrainingWorkers - 1 } }

/-- Interleaved execution: either the coordinator executes its next
statement or some worker acknowledges. -/
def Step (newVersion : Nat) (c c' : Config) : Prop :=
  CoordStep newVersion c c' ∨ EnvStep c c'

/-- Multi-step interleaved execution of the accept branch. -/
def Reaches (newVersion : Nat) : Config → Config → Prop :=
  Relation.ReflTransGen (Step newVersion)

/-- The state visible to one iteration of the outer `while True` loop of
`Evaluator.start` before / after the iteration: the coordinator's local
model reference, the shared dictionary, and the archived versions. -/
structure OuterState where
  currentModel : Nat
  shared : SharedState
  saved : List Nat
deriving DecidableEq, Repr

/-- One iteration of the outer `while True` loop of `Evaluator.start`.
`queueGet` is the outcome of `new_model_queue.get(timeout=...)`
(`none` = `queue.Empty` was raised, `some cand` = a candidate version was
received); `evalOf cand` is the outcome of `self.evaluate(current, cand)`.
The first boolean records whether `evaluate` was invoked, the second
whether the accept branch was entered.
* `emptyQueue`: the `except queue.Empty: continue` path — nothing changes.
* `reject`: `evaluate` returned `False` — the candidate is dropped,
  nothing changes.
* `accept`: `evaluate` returned `True` — the accept branch runs to
  completion (as the interleaved machine `Reaches`, promoting `cand`),
  with the two snapshot locals freshly initialized. -/
inductive LoopIter (evalOf : Nat → Except String Bool) :
    Option Nat → OuterState → OuterState → Bool → Bool → Prop where
  | emptyQueue (s : OuterState) : LoopIter evalOf none s s false false
  | reject (cand : Nat) (s : OuterState) : evalOf cand = .ok false →
      LoopIter evalOf (some cand) s s true false
  | accept (cand : Nat) (s : OuterState) (c : Config) : evalOf cand = .ok true →
      Reaches cand ⟨.loadCurrent, s.currentModel, 0, 0, s.shared, s.saved⟩ c →
      c.pc = .done →
      LoopIter evalOf (some cand) s ⟨c.currentModel, c.shared, c.saved⟩ true true

/-- A wall-clock instant at second granularity, as produced by
`time.gmtime()` and consumed by `time.strftime`. -/
structure Timestamp where
  year : Nat
  month : Nat
  day : Nat
  hour : Nat
  minute : Nat
  second : Nat
deriving DecidableEq, Repr

/-- Zero-pad the decimal representation of `n` on the left to width `w`
(the behavior of the zero-padded `strftime` directives). -/
def padNum (w : Nat) (n : Nat) : String :=
  let s := toString n
  String.mk (List.replicate (w - s.length) '0') ++ s

/-- `time.strftime("%Y-%m-%d_%H-%M-%S", t)`: the timestamped base name
used by `save_accepted_model`. -/
def timestampName (t : Timestamp) : String :=
  padNum 4 t.year ++ "-" ++ padNum 2 t.month ++ "-" ++ padNum 2 t.day ++ "_" ++
    padNum 2 t.hour ++ "-" ++ padNum 2 t.minute ++ "-" ++ padNum 2 t.second

/-- `os.makedirs(d, exist_ok = ok)` over a directory set modelled as a
list: if the directory already exists it is an error unless `ok` is set,
otherwise the directory is added; `none` models `FileExistsError`. -/
def makedirs (dirs : List String) (d : String) (ok : Bool) : Option (List String) :=
  if dirs.contains d then (if ok then some dirs else none) else some (d :: dirs)

/-- The file-system effect of one `save_accepted_model` call: the
directory set after `os.makedirs`, the directory that was ensured, the
path handed to `torch.save`, the model version written there, and the
value returned to the caller. -/
structure SaveOutcome where
  dirsAfter : List String
  dir : String
  writtenPath : String
  writtenModel : Nat
  ret : Option String
deriving DecidableEq, Repr

/-- `save_accepted_model(path, model)` at instant `t` with pre-existing
directories `dirs`: build `file_name = strftime(...) + ".pt"` and
`relative_dir = "../../" + path`, run `os.makedirs(relative_dir,
exist_ok=True)`, save the model under `os.path.join(relative_dir,
file_name)`, and fall off the end of the function (python returns `None`:
the source has no return statement). -/
def save_accepted_model (path : String) (model : Nat) (t : Timestamp)
    (dirs : List String) : Except String SaveOutcome :=
  let now := timestampName t
  let file_name := now ++ ".pt"
  let relative_dir := "../../" ++ path
  match makedirs dirs relative_dir true with
  | none => .error "FileExistsError"
  | some dirs2 =>
      .ok { dirsAfter := dirs2
            dir := relative_dir
            writtenPath := relative_dir ++ "/" ++ file_name
            writtenModel := model
            ret := none }

/-- Invariant for the publish-before-signal ordering: past the publish
statement the shared model slot holds the new version, and before it both
signal flags are still clear. -/
def modelPublishedInv (newVersion : Nat) (c : Config) : Prop :=
  (2 ≤ pcIdx c.pc → c.shared.modelSlot = newVersion) ∧
  (pcIdx c.pc < 2 → c.shared.selfPlaySignal = 0 ∧ c.shared.trainingSignal = 0)

lemma modelPublishedInv_step (newVersion : Nat) {c c' : Config}
    (h : Step newVersion c c') (hi : modelPublishedInv newVersion c) :
    modelPublishedInv newVersion c' := by
  obtain ⟨h1, h2⟩ := hi
  rcases h with h | h
  · cases h with
    | loadCurrent hpc =>
      exact ⟨fun hh => absurd hh (by simp [pcIdx]),
             fun _ => h2 (by simp [hpc, pcIdx])⟩
    | publishModel hpc =>
      exact ⟨fun _ => rfl, fun hh => absurd hh (by simp [pcIdx])⟩
    | setSelfPlaySignal hpc =>
      exact ⟨fun _ => h1 (by simp [hpc, pcIdx]),
             fun hh => absurd hh (by simp [pcIdx])⟩
    | setTrainingSignal hpc =>
      exact ⟨fun _ => h1 (by simp [hpc, pcIdx]),
             fun hh => absurd hh (by simp [pcIdx])⟩
    | snapSelfPlay hpc =>
      exact ⟨fun _ => h1 (by simp [hpc, pcIdx]),
             fun hh => absurd hh (by simp [pcIdx])⟩
    | snapTraining hpc =>
      exact ⟨fun _ => h1 (by simp [hpc, pcIdx]),
             fun hh => absurd hh (by simp [pcIdx])⟩
    | waitSleep hpc hw => exact ⟨h1, h2⟩
    | waitExit hpc hw =>
      exact ⟨fun _ => h1 (by simp [hpc, pcIdx]),
             fun hh => absurd hh (by simp [pcIdx])⟩
    | clearSelfPlaySignal hpc =>
      exact ⟨fun _ => h1 (by simp [hpc, pcIdx]),
             fun hh => absurd hh (by simp [pcIdx])⟩
    | clearTrainingSignal hpc =>
      exact ⟨fun _ => h1 (by simp [hpc, pcIdx]),
             fun hh => absurd hh (by simp [pcIdx])⟩
    | restoreSelfPlay hpc =>
      exact ⟨fun _ => h1 (by simp [hpc, pcIdx]),
             fun hh => absurd hh (by simp [pcIdx])⟩
    | restoreTraining hpc =>
      exact ⟨fun _ => h1 (by simp [hpc, pcIdx]),
             fun hh => absurd hh (by simp [pcIdx])⟩
    | saveModel hpc =>
      exact ⟨fun _ => h1 (by simp [hpc, pcIdx]),
             fun hh => absurd hh (by simp [pcIdx])⟩
  · cases h with
    | selfPlayAck hsig => exact ⟨h1, h2⟩
    | trainingAck hsig => exact ⟨h1, h2⟩

lemma modelPublishedInv_reaches (newVersion : Nat) {a c : Config}
    (h : Reaches newVersion a c) (ha : modelPublishedInv newVersion a) :
    modelPublishedInv newVersion c := by
  induction h with
  | refl => exact ha
  | tail _ hstep ih => exact modelPublishedInv_step newVersion hstep ih

/-- Invariant for the cleanup phase of the accept branch: once a signal
flag has been cleared it stays clear, and once a counter has been restored
it equals the coordinator's snapshot local and stays there (no worker may
acknowledge any more because the gating signal is already clear). -/
def cleanupInv (c : Config) : Prop :=
  (8 ≤ pcIdx c.pc → c.shared.selfPlaySignal = 0) ∧
  (9 ≤ pcIdx c.pc → c.shared.trainingSignal = 0) ∧
  (10 ≤ pcIdx c.pc → c.shared.numSelfPlayWorkers = c.snapSelfPlay) ∧
  (11 ≤ pcIdx c.pc → c.shared.numTrainingWorkers = c.snapTraining)

lemma cleanupInv_step (newVersion : Nat) {c c' : Config}
    (h : Step newVersion c c') (hi : cleanupInv c) : cleanupInv c' := by
  obtain ⟨h1, h2, h3, h4⟩ := hi
  rcases h with h | h
  · cases h with
    | loadCurrent hpc =>
      exact ⟨fun hh => absurd hh (by simp [pcIdx]),
             fun hh => absurd hh (by simp [pcIdx]),
             fun hh => absurd hh (by simp [pcIdx]),
             fun hh => absurd hh (by simp [pcIdx])⟩
    | publishModel hpc =>
      exact ⟨fun hh => absurd hh (by simp [pcIdx]),
             fun hh => absurd hh (by simp [pcIdx]),
             fun hh => absurd hh (by simp [pcIdx]),
             fun hh => absurd hh (by simp [pcIdx])⟩
    | setSelfPlaySignal hpc =>
      exact ⟨fun hh => absurd hh (by simp [pcIdx]),
             fun hh => absurd hh (by simp [pcIdx]),
             fun hh => absurd hh (by simp [pcIdx]),
             fun hh => absurd hh (by simp [pcIdx])⟩
    | setTrainingSignal hpc =>
      exact ⟨fun hh => absurd hh (by simp [pcIdx]),
             fun hh => absurd hh (by simp [pcIdx]),
             fun hh => absurd hh (by simp [pcIdx]),
             fun hh => absurd hh (by simp [pcIdx])⟩
    | snapSelfPlay hpc =>
      exact ⟨fun hh => absurd hh (by simp [pcIdx]),
             fun hh => absurd hh (by simp [pcIdx]),
             fun hh => absurd hh (by simp [pcIdx]),
             fun hh => absurd hh (by simp [pcIdx])⟩
    | snapTraining hpc =>
      exact ⟨fun hh => absurd hh (by simp [pcIdx]),
             fun hh => absurd hh (by simp [pcIdx]),
             fun hh => absurd hh (by simp [pcIdx]),
             fun hh => absurd hh (by simp [pcIdx])⟩
    | waitSleep hpc hw => exact ⟨h1, h2, h3, h4⟩
    | waitExit hpc hw =>
      exact ⟨fun hh => absurd hh (by simp [pcIdx]),
             fun hh => absurd hh (by simp [pcIdx]),
             fun hh => absurd hh (by simp [pcIdx]),
             fun hh => absurd hh (by simp [pcIdx])⟩
    | clearSelfPlaySignal hpc =>
      exact ⟨fun _ => rfl,
             fun hh => absurd hh (by simp [pcIdx]),
             fun hh => absurd hh (by simp [pcIdx]),
             fun hh => absurd hh (by simp [pcIdx])⟩
    | clearTrainingSignal hpc =>
      exact ⟨fun _ => h1 (by simp [hpc, pcIdx]),
             fun _ => rfl,
             fun hh => absurd hh (by simp [pcIdx]),
             fun hh => absurd hh (by simp [pcIdx])⟩
    | restoreSelfPlay hpc =>
      exact ⟨fun _ => h1 (by simp [hpc, pcIdx]),
             fun _ => h2 (by simp [hpc, pcIdx]),
             fun _ => rfl,
             fun hh => absurd hh (by simp [pcIdx])⟩
    | restoreTraining hpc =>
      exact ⟨fun _ => h1 (by simp [hpc, pcIdx]),
             fun _ => h2 (by simp [hpc, pcIdx]),
             fun _ => h3 (by simp [hpc, pcIdx]),
             fun _ => rfl⟩
    | saveModel hpc =>
      exact ⟨fun _ => h1 (by simp [hpc, pcIdx]),
             fun _ => h2 (by simp [hpc, pcIdx]),
             fun _ => h3 (by simp [hpc, pcIdx]),
             fun _ => h4 (by simp [hpc, pcIdx])⟩
  · cases h with
    | selfPlayAck hsig =>
      refine ⟨h1, h2, fun hh => ?_, h4⟩
      have hh' : 10 ≤ pcIdx c.pc := hh
      have hz := h1 (by omega)
      rw [hz] at hsig
      simp at hsig
    | trainingAck hsig =>
      refine ⟨h1, h2, h3, fun hh => ?_⟩
      have hh' : 11 ≤ pcIdx c.pc := hh
      have hz := h2 (by omega)
      rw [hz] at hsig
      simp at hsig

lemma cleanupInv_reaches (newVersion : Nat) {a c : Config}
    (h : Reaches newVersion a c) (ha : cleanupInv a) : cleanupInv c := by
  induction h with
  | refl => exact ha
  | tail _ hstep ih => exact cleanupInv_step newVersion hstep ih

/-- A result sequence for 20 games in which the candidate wins 11 games:
second-player wins in games 0-9 (candidate is second in the first half),
a first-player win in game 10 (candidate is first in the second half),
draws elsewhere. -/
def results11 : Nat → Int :=
  fun i => if i < 10 then -1 else if i = 10 then 1 else 0

/-- A result sequence for 20 games in which the candidate wins exactly the
10 first-half games as second player and draws the rest. -/
def results10 : Nat → Int :=
  fun i => if i < 10 then -1 else 0

/-- C1: the claim states that the barrier wait of the accept branch in
`Evaluator.start` exits only when both pending counters are zero.  The
source guard is the conjunction `sp > 0 and tr > 0`, so the loop exits as
soon as either counter reaches zero: from a wait-test configuration with
`NUM_SELF_PLAY_WORKERS = 0` and `NUM_TRAINING_WORKERS = 3 > 0`, the guard
evaluates to false and the coordinator steps to the statement clearing the
signal flags, with three training workers still pending. -/
theorem barrier_exits_with_pending_training :
    waitLoopContinues 0 3 = false ∧ (3 : Int) > 0 ∧
    CoordStep 7 ⟨.waitTest, 7, 5, 3, ⟨7, 1, 1, 0, 3⟩, []⟩
      ⟨.clearSelfPlaySignal, 7, 5, 3, ⟨7, 1, 1, 0, 3⟩, []⟩ :=
  ⟨rfl, by decide, CoordStep.waitExit _ rfl rfl⟩

/-- C2: the claim states that when no ranked candidate action passes the
legality check, `Evaluator.play_game` raises a fatal error and never
applies an action that failed the check.  In the source, the loop variable
`action` keeps the last decoded candidate when no candidate is valid, and
the episode proceeds: on `stuckGame` (where `checkIfValid` always fails)
the selection loop returns the (illegal) action `()`, `getNextState` is
called with it, and `play_game` completes normally with a result. -/
theorem illegal_action_applied :
    selectAction (fun a => stuckGame.checkIfValid 0 a) none (stuckRanked 0) = some () ∧
    stuckGame.checkIfValid 0 () = false ∧
    play_game stuckGame 2 stuckRanked stuckRanked = some 1 :=
  ⟨rfl, rfl, rfl⟩

/-- C3: for every `numGames >= 1`, threshold and result sequence,
`evaluate` returns true iff `num_wins / numGames >= threshold` (exact
fractional comparison, inclusive at the boundary); with 11 wins out of 20
and threshold 0.55 it returns true, with 10 wins out of 20 it returns
false. -/
theorem evaluate_threshold_iff :
    (∀ (n : Nat) (threshold : ℚ) (r : Nat → Int), 1 ≤ n →
      (evaluate n threshold r = .ok true ↔
        ((num_wins n r : ℚ) / (n : ℚ) ≥ threshold))) ∧
    num_wins 20 results11 = 11 ∧
    evaluate 20 (55 / 100) results11 = .ok true ∧
    num_wins 20 results10 = 10 ∧
    evaluate 20 (55 / 100) results10 = .ok false := by
  have hmain : ∀ (n : Nat) (threshold : ℚ) (r : Nat → Int), 1 ≤ n →
      (evaluate n threshold r = .ok true ↔
        ((num_wins n r : ℚ) / (n : ℚ) ≥ threshold)) := by
    intro n th r hn
    have hne : ¬ n = 0 := by omega
    simp [evaluate, hne]
  have h11 : num_wins 20 results11 = 11 := by decide
  have h10 : num_wins 20 results10 = 10 := by decide
  refine ⟨hmain, h11, ?_, h10, ?_⟩
  · rw [(hmain 20 (55 / 100) results11 (by omega)), h11]
    norm_num
  · have hne : ¬ (20 : Nat) = 0 := by omega
    simp only [evaluate, hne, if_false, h10]
    have : ¬ (((10 : Nat) : ℚ) / ((20 : Nat) : ℚ) ≥ 55 / 100) := by norm_num
    rw [decide_eq_false this]

/-- Witness for C3: the iff instantiated at 20 games, threshold 0.55 and
the 11-win result sequence. -/
theorem evaluate_threshold_iff_witness :
    evaluate 20 (55 / 100) results11 = .ok true ↔
      ((num_wins 20 results11 : ℚ) / ((20 : Nat) : ℚ) ≥ 55 / 100) :=
  evaluate_threshold_iff.1 20 (55 / 100) results11 (by decide)

/-- C4: for every `numGames` and result sequence, the incumbent occupies
the "first" role in exactly `numGames / 2` games and the candidate in the
remaining `numGames - numGames / 2` games (the two halves summing to
`numGames`); the role log is the first half incumbent / second half
candidate split, and a game is counted as a candidate win exactly when it
is a second-player win in the first half or a first-player win in the
second half. -/
theorem role_split_and_scoring (n : Nat) (r : Nat → Int) :
    (evalLoop n r).log.count Agent.incumbent = n / 2 ∧
    (evalLoop n r).log.count Agent.candidate = n - n / 2 ∧
    n / 2 + (n - n / 2) = n ∧
    (evalLoop n r).log = (List.range n).map (roleOf (n / 2)) ∧
    (evalLoop n r).numWins = ((List.range n).filter (winCond (n / 2) r)).length := by
  unfold evalLoop
  rw [evalLoop_closed_form (n / 2) r n]
  refine ⟨?_, ?_, by omega, rfl, rfl⟩
  · rw [count_roleOf_incumbent]
    omega
  · rw [count_roleOf_candidate]
    omega

/-- C5 counterexample: at a concrete input, `save_accepted_model` writes
the timestamped file but returns `None`, not the final path: the python
function has no return statement. -/
theorem save_returns_none_not_path :
    (save_accepted_model "models" 7 ⟨2024, 1, 2, 3, 4, 5⟩ []).map SaveOutcome.ret =
      .ok none ∧
    (save_accepted_model "models" 7 ⟨2024, 1, 2, 3, 4, 5⟩ []).map SaveOutcome.writtenPath =
      .ok "../../models/2024-01-02_03-04-05.pt" :=
  ⟨rfl, rfl⟩

/-- C5 (amended): for every call, `save_accepted_model` derives the file
name from the wall-clock time at second granularity in the sortable
`%Y-%m-%d_%H-%M-%S` format, creates the destination directory
idempotently (succeeding whether or not it already exists), writes the
model's parameters to the timestamped path under that directory — and
returns `None` rather than the final path. -/
theorem save_accepted_model_effect (path : String) (model : Nat) (t : Timestamp)
    (dirs : List String) :
    save_accepted_model path model t dirs =
      .ok { dirsAfter := if ("../../" ++ path) ∈ dirs then dirs
                         else ("../../" ++ path) :: dirs
            dir := "../../" ++ path
            writtenPath := "../../" ++ path ++ "/" ++ (timestampName t ++ ".pt")
            writtenModel := model
            ret := none } := by
  unfold save_accepted_model makedirs
  by_cases hd : ("../../" ++ path) ∈ dirs <;> simp [hd]

/-- C6: every completed run of the accept branch (from its entry point to
`done`, under arbitrary interleaved worker acknowledgements) ends with
both signal flags cleared and both pending counters equal to the snapshot
values held in the coordinator's locals — restored, not zeroed. -/
theorem promotion_cycle_restores (newVersion : Nat) (start c : Config)
    (hstart : start.pc = .loadCurrent)
    (hr : Reaches newVersion start c) (hdone : c.pc = .done) :
    c.shared.selfPlaySignal = 0 ∧ c.shared.trainingSignal = 0 ∧
    c.shared.numSelfPlayWorkers = c.snapSelfPlay ∧
    c.shared.numTrainingWorkers = c.snapTraining := by
  have hinv : cleanupInv c := by
    refine cleanupInv_reaches newVersion hr ?_
    refine ⟨?_, ?_, ?_, ?_⟩ <;> (rw [hstart]; intro hh; exact absurd hh (by simp [pcIdx]))
  obtain ⟨h1, h2, h3, h4⟩ := hinv
  rw [hdone] at h1 h2 h3 h4
  exact ⟨h1 (by simp [pcIdx]), h2 (by simp [pcIdx]),
         h3 (by simp [pcIdx]), h4 (by simp [pcIdx])⟩

/-- Witness for C6: a full concrete execution of the accept branch
promoting version 7, with two self-play workers acknowledging during the
wait; the final shared state has signals 0 and counters restored to the
snapshot (2 and 1). -/
theorem promotion_cycle_restores_witness :
    (Config.mk .done 7 2 1 ⟨7, 0, 0, 2, 1⟩ [7]).shared.selfPlaySignal = 0 ∧
    (Config.mk .done 7 2 1 ⟨7, 0, 0, 2, 1⟩ [7]).shared.trainingSignal = 0 ∧
    (Config.mk .done 7 2 1 ⟨7, 0, 0, 2, 1⟩ [7]).shared.numSelfPlayWorkers =
      (Config.mk .done 7 2 1 ⟨7, 0, 0, 2, 1⟩ [7]).snapSelfPlay ∧
    (Config.mk .done 7 2 1 ⟨7, 0, 0, 2, 1⟩ [7]).shared.numTrainingWorkers =
      (Config.mk .done 7 2 1 ⟨7, 0, 0, 2, 1⟩ [7]).snapTraining := by
  refine promotion_cycle_restores 7 ⟨.loadCurrent, 3, 0, 0, ⟨3, 0, 0, 2, 1⟩, []⟩
    _ rfl ?_ rfl
  refine Relation.ReflTransGen.head (Or.inl (CoordStep.loadCurrent _ rfl)) ?_
  refine Relation.ReflTransGen.head (Or.inl (CoordStep.publishModel _ rfl)) ?_
  refine Relation.ReflTransGen.head (Or.inl (CoordStep.setSelfPlaySignal _ rfl)) ?_
  refine Relation.ReflTransGen.head (Or.inl (CoordStep.setTrainingSignal _ rfl)) ?_
  refine Relation.ReflTransGen.head (Or.inl (CoordStep.snapSelfPlay _ rfl)) ?_
  refine Relation.ReflTransGen.head (Or.inl (CoordStep.snapTraining _ rfl)) ?_
  refine Relation.ReflTransGen.head (Or.inr (EnvStep.selfPlayAck _ rfl)) ?_
  refine Relation.ReflTransGen.head (Or.inr (EnvStep.selfPlayAck _ rfl)) ?_
  refine Relation.ReflTransGen.head (Or.inl (CoordStep.waitExit _ rfl (by decide))) ?_
  refine Relation.ReflTransGen.head (Or.inl (CoordStep.clearSelfPlaySignal _ rfl)) ?_
  refine Relation.ReflTransGen.head (Or.inl (CoordStep.clearTrainingSignal _ rfl)) ?_
  refine Relation.ReflTransGen.head (Or.inl (CoordStep.restoreSelfPlay _ rfl)) ?_
  refine Relation.ReflTransGen.head (Or.inl (CoordStep.restoreTraining _ rfl)) ?_
  refine Relation.ReflTransGen.head (Or.inl (CoordStep.saveModel _ rfl)) ?_
  exact Relation.ReflTransGen.refl

/-- C7: in every promotion performed by the accept branch (entered with
both signal flags clear), the new version is written to the shared model
slot strictly before either signal flag is set: in every reachable
configuration in which a signal flag is set, the shared slot already holds
the newly accepted version. -/
theorem publish_before_signals (newVersion : Nat) (start c : Config)
    (hstart : start.pc = .loadCurrent)
    (hsp : start.shared.selfPlaySignal = 0)
    (htr : start.shared.trainingSignal = 0)
    (hr : Reaches newVersion start c)
    (hsig : c.shared.selfPlaySignal = 1 ∨ c.shared.trainingSignal = 1) :
    c.shared.modelSlot = newVersion := by
  have hinv : modelPublishedInv newVersion c := by
    refine modelPublishedInv_reaches newVersion hr ?_
    exact ⟨fun hh => absurd hh (by simp [hstart, pcIdx]), fun _ => ⟨hsp, htr⟩⟩
  obtain ⟨h1, h2⟩ := hinv
  by_cases hlt : pcIdx c.pc < 2
  · rcases hsig with hs | hs
    · rw [(h2 hlt).1] at hs
      simp at hs
    · rw [(h2 hlt).2] at hs
      simp at hs
  · exact h1 (by omega)

/-- Witness for C7: after the coordinator has published version 7 and set
the self-play signal, the shared model slot holds 7. -/
theorem publish_before_signals_witness :
    (Config.mk .setTrainingSignal 7 0 0 ⟨7, 1, 0, 2, 1⟩ []).shared.modelSlot = 7 := by
  refine publish_before_signals 7 ⟨.loadCurrent, 3, 0, 0, ⟨3, 0, 0, 2, 1⟩, []⟩
    _ rfl rfl rfl ?_ (Or.inl rfl)
  refine Relation.ReflTransGen.head (Or.inl (CoordStep.loadCurrent _ rfl)) ?_
  refine Relation.ReflTransGen.head (Or.inl (CoordStep.publishModel _ rfl)) ?_
  refine Relation.ReflTransGen.head (Or.inl (CoordStep.setSelfPlaySignal _ rfl)) ?_
  exact Relation.ReflTransGen.refl

/-- C8: `evaluate` is a pure function of the game outcomes (it takes no
coordination state), and an iteration of the coordinator loop in which
`evaluate` returns false leaves the shared coordination state, the current
model reference and the archive unchanged and does not enter the accept
branch. -/
theorem evaluate_reject_no_side_effects
    (n : Nat) (threshold : ℚ) (r : Nat → Int) (cand : Nat)
    (s s' : OuterState) (ev pr : Bool)
    (he : evaluate n threshold r = .ok false)
    (hit : LoopIter (fun _ => evaluate n threshold r) (some cand) s s' ev pr) :
    s' = s ∧ pr = false := by
  cases hit with
  | reject _ _ _ => exact ⟨rfl, rfl⟩
  | accept _ _ c hev _ _ =>
    simp only at hev
    rw [he] at hev
    cases hev

/-- Witness for C8: with 1 game, threshold 1 and a drawn game, `evaluate`
returns false and the rejecting iteration changes nothing. -/
theorem evaluate_reject_no_side_effects_witness :
    (⟨3, ⟨3, 0, 0, 2, 1⟩, []⟩ : OuterState) = ⟨3, ⟨3, 0, 0, 2, 1⟩, []⟩ ∧
    false = false := by
  have he : evaluate 1 1 (fun _ => 0) = .ok false := by
    have hw : num_wins 1 (fun _ => 0) = 0 := by decide
    simp only [evaluate, hw, if_neg one_ne_zero]
    have : ¬ (((0 : Nat) : ℚ) / ((1 : Nat) : ℚ) ≥ 1) := by norm_num
    rw [decide_eq_false this]
  exact evaluate_reject_no_side_effects 1 1 (fun _ => 0) 5 _ _ true false he
    (LoopIter.reject 5 _ he)

/-- C9: an iteration of the coordinator loop in which the intake-queue
read times out empty is a no-op: no evaluation runs, no state is modified,
the accept branch is not entered, and the loop simply continues. -/
theorem empty_queue_noop (evalOf : Nat → Except String Bool)
    (s s' : OuterState) (ev pr : Bool)
    (hit : LoopIter evalOf none s s' ev pr) :
    s' = s ∧ ev = false ∧ pr = false := by
  cases hit
  exact ⟨rfl, rfl, rfl⟩

/-- Witness for C9: a concrete empty-queue iteration. -/
theorem empty_queue_noop_witness :
    (⟨4, ⟨4, 0, 0, 2, 1⟩, [4]⟩ : OuterState) = ⟨4, ⟨4, 0, 0, 2, 1⟩, [4]⟩ ∧
    false = false ∧ false = false :=
  empty_queue_noop (fun _ => .ok false) _ _ false false (LoopIter.emptyQueue _)

/-- C10: `evaluate` with `num_evaluate_games = 0` runs the game loop zero
times and then raises `ZeroDivisionError` at the acceptance check; for
every `numGames >= 1` it returns a boolean. -/
theorem evaluate_zero_games_divzero :
    ∀ (threshold : ℚ) (r : Nat → Int),
      evaluate 0 threshold r = .error "ZeroDivisionError: division by zero" ∧
      (evalLoop 0 r).log = [] ∧ num_wins 0 r = 0 ∧
      ∀ n : Nat, 1 ≤ n →
        evaluate n threshold r =
          .ok (decide ((num_wins n r : ℚ) / (n : ℚ) ≥ threshold)) := by
  intro th r
  refine ⟨rfl, rfl, rfl, ?_⟩
  intro n hn
  have hne : ¬ n = 0 := by omega
  simp [evaluate, hne]

/-- Witness for C10: the total-on-positive part instantiated at one game. -/
theorem evaluate_zero_games_divzero_witness :
    evaluate 1 1 (fun _ => 0) =
      .ok (decide ((num_wins 1 (fun _ => 0) : ℚ) / ((1 : Nat) : ℚ) ≥ 1)) :=
  (evaluate_zero_games_divzero 1 (fun _ => 0)).2.2.2 1 (by decide)

end AlphaZero
